import Mathlib

/-!
Verification of `gfsa/datasets/padding_calibration.py` (`calibrate_padding`).

The numeric core of the program is embedded over `ℝ`.  External collaborators
are parameters of the embedding, mirroring how the source receives or imports
them:

* `example_builder` is a caller-supplied function; fallible calls are modelled
  with `Except`.
* the stream of `np.random.randint(min_object_size, max_object_size)` draws is
  an input list (numpy's generator is external; its documented contract, that
  every draw lies in the half-open range, becomes a hypothesis where needed);
* `scipy.special.erfinv` is a parameter `erfinv : ℝ → ℝ` (scipy is external;
  its documented contract, monotonicity with `erfinv 0 = 0`, becomes a
  hypothesis where needed);
* the `optax.adam` optimizer is a parameter: an initializer `optInit` and an
  update `optStep` threading an opaque optimizer state, applied exactly as the
  source's loop does.
-/

noncomputable section

/-- The five measured size dimensions, in the order of the `data` dictionary
of the source. -/
inductive SizeKey where
  | graph_nodes
  | graph_in_tagged_nodes
  | initial_transitions
  | in_tagged_transitions
  | edges
deriving DecidableEq, Repr

/-- The 4-tuple of model parameters, unpacked in the source as
`base_mu, base_std, prop_mu, prop_std = params`. -/
structure ModelParams where
  base_mu : ℝ
  base_std : ℝ
  prop_mu : ℝ
  prop_std : ℝ

/-- A sparse array as accessed by the source: only `values.shape[0]`
(the length of `values`) is observed. -/
structure SparseArray where
  values : List Unit

/-- `example.graph_metadata` as accessed by the source. -/
structure GraphMetadata where
  num_nodes : ℤ
  num_input_tagged_nodes : ℤ

/-- `example.automaton_graph` as accessed by the source. -/
structure AutomatonGraph where
  initial_to_in_tagged : SparseArray
  in_tagged_to_in_tagged : SparseArray

/-- The parts of a generated example that `calibrate_padding` reads. -/
structure ExampleData where
  graph_metadata : GraphMetadata
  automaton_graph : AutomatonGraph
  edges : SparseArray

/-- `static_max_metadata` of a padding configuration. -/
structure EncodedGraphMetadata where
  num_nodes : ℤ
  num_input_tagged_nodes : ℤ

/-- The padding configuration structure consumed and produced by
`calibrate_padding`. -/
structure PaddingConfig where
  static_max_metadata : EncodedGraphMetadata
  max_initial_transitions : ℤ
  max_in_tagged_transitions : ℤ
  max_edges : ℤ

/-- The five measurements the sampling loop extracts from one generated
example (source lines 112-120). -/
def measureOf (e : ExampleData) : SizeKey → ℤ
  | .graph_nodes => e.graph_metadata.num_nodes
  | .graph_in_tagged_nodes => e.graph_metadata.num_input_tagged_nodes
  | .initial_transitions => (e.automaton_graph.initial_to_in_tagged.values.length : ℤ)
  | .in_tagged_transitions => (e.automaton_graph.in_tagged_to_in_tagged.values.length : ℤ)
  | .edges => (e.edges.values.length : ℤ)

/-- The sampling loop (source lines 108-120): for each drawn target size call
the builder and record the target size together with the five measurements.
An error raised by the builder aborts the whole loop. -/
def collectSamples {ε : Type} (example_builder : ℤ → Except ε ExampleData) :
    List ℤ → Except ε (List (ℤ × (SizeKey → ℤ)))
  | [] => Except.ok []
  | t :: rest =>
    match example_builder t with
    | Except.error e => Except.error e
    | Except.ok ex =>
      match collectSamples example_builder rest with
      | Except.error e => Except.error e
      | Except.ok tail => Except.ok ((t, measureOf ex) :: tail)

/-- The `(object_sizes, values)` pairs handed to the fitter for one dimension,
as real numbers. -/
def dimData (samples : List (ℤ × (SizeKey → ℤ))) (k : SizeKey) : List (ℝ × ℝ) :=
  samples.map (fun s => ((s.1 : ℝ), ((s.2 k : ℤ) : ℝ)))

/-- `single_log_likelihood` from the source (lines 125-130), transcribed
literally:
`-0.5 * (log(var + 2*pi) + (x - mu)**2 / var)` with
`mu = base_mu + n * prop_mu` and `var = base_std**2 + n * prop_std**2 + 1e-3`. -/
def single_log_likelihood (params : ModelParams) (n x : ℝ) : ℝ :=
  -0.5 * (Real.log ((params.base_std ^ 2 + n * params.prop_std ^ 2 + 1e-3) + 2 * Real.pi) +
    (x - (params.base_mu + n * params.prop_mu)) ^ 2 /
      (params.base_std ^ 2 + n * params.prop_std ^ 2 + 1e-3))

/-- `compute_loss` from the source (lines 132-134): the negated sum of the
per-sample log likelihoods. -/
def compute_loss (params : ModelParams) (nxs : List (ℝ × ℝ)) : ℝ :=
  -((nxs.map (fun nx => single_log_likelihood params nx.1 nx.2)).sum)

/-- The optimization loop of the fitter (source lines 144-151).  `fuel` is the
remaining iteration budget; the last two arguments model the Python variables
`last_loss` and `loss` (`none` when the variable has not been assigned yet).
Every iteration computes the loss, stops when the change from `last_loss` is
below `eps`, and otherwise performs one optimizer step.  Returns the final
parameters together with the final state of the `loss` variable. -/
def fitGo {σ : Type} (optStep : σ → ModelParams → σ × ModelParams)
    (eps : ℝ) (nxs : List (ℝ × ℝ)) :
    ℕ → ModelParams → σ → Option ℝ → Option ℝ → ModelParams × Option ℝ
  | 0, params, _, _, lossVar => (params, lossVar)
  | fuel + 1, params, st, some lastLoss, _ =>
    if |lastLoss - compute_loss params nxs| < eps then
      (params, some (compute_loss params nxs))
    else
      fitGo optStep eps nxs fuel (optStep st params).2 (optStep st params).1
        (some (compute_loss params nxs)) (some (compute_loss params nxs))
  | fuel + 1, params, st, none, _ =>
    fitGo optStep eps nxs fuel (optStep st params).2 (optStep st params).1
      (some (compute_loss params nxs)) (some (compute_loss params nxs))

/-- Initial parameter vector `jnp.array([0., 1., 0., 1.])` (source line 141). -/
def initParams : ModelParams := ModelParams.mk 0 1 0 1

/-- Fit the size model for one dimension (source lines 141-151): start from
`initParams` and the optimizer state `optInit initParams`, run the loop. -/
def fit_model {σ : Type} (optInit : ModelParams → σ)
    (optStep : σ → ModelParams → σ × ModelParams)
    (maxSteps : ℕ) (eps : ℝ) (nxs : List (ℝ × ℝ)) : ModelParams × Option ℝ :=
  fitGo optStep eps nxs maxSteps initParams (optInit initParams) none none

/-- The fitter including the post-loop print (source line 152), which reads
the Python variable `loss`.  When the loop body never ran, `loss` was never
assigned and the read raises a `NameError`, modelled by `nameErr`. -/
def fit_model_checked {σ ε : Type} (nameErr : ε) (optInit : ModelParams → σ)
    (optStep : σ → ModelParams → σ × ModelParams)
    (maxSteps : ℕ) (eps : ℝ) (nxs : List (ℝ × ℝ)) : Except ε ModelParams :=
  match fit_model optInit optStep maxSteps eps nxs with
  | (params, some _) => Except.ok params
  | (_, none) => Except.error nameErr

/-- Run the per-dimension fitter over the five dimensions in the order of the
source's `data.items()` loop, stopping at the first error. -/
def fitDims {ε : Type} (fitOne : SizeKey → Except ε ModelParams) :
    Except ε (SizeKey → ModelParams) :=
  match fitOne .graph_nodes with
  | Except.error e => Except.error e
  | Except.ok v1 =>
    match fitOne .graph_in_tagged_nodes with
    | Except.error e => Except.error e
    | Except.ok v2 =>
      match fitOne .initial_transitions with
      | Except.error e => Except.error e
      | Except.ok v3 =>
        match fitOne .in_tagged_transitions with
        | Except.error e => Except.error e
        | Except.ok v4 =>
          match fitOne .edges with
          | Except.error e => Except.error e
          | Except.ok v5 => Except.ok (fun k => match k with
            | .graph_nodes => v1
            | .graph_in_tagged_nodes => v2
            | .initial_transitions => v3
            | .in_tagged_transitions => v4
            | .edges => v5)

/-- The smaller quadratic root computed by the constraint solver for one
dimension (source lines 175-179), transcribed literally with
`E = erfinv(2p-1)**2` already computed:
`a = prop_mu**2`, `b = 2*prop_mu*(base_mu - target) - 2*prop_std**2*E`,
`c = (target - base_mu)**2 - 2*(base_std**2 + 1e-3)*E`,
root `(-b - sqrt(b**2 - 4*a*c)) / (2*a)`. -/
def rootOf (θ : ModelParams) (target E : ℝ) : ℝ :=
  (-(2 * θ.prop_mu * (θ.base_mu - target) - 2 * θ.prop_std ^ 2 * E) -
      Real.sqrt ((2 * θ.prop_mu * (θ.base_mu - target) - 2 * θ.prop_std ^ 2 * E) ^ 2 -
        4 * θ.prop_mu ^ 2 * ((target - θ.base_mu) ^ 2 - 2 * (θ.base_std ^ 2 + 1e-3) * E))) /
    (2 * θ.prop_mu ^ 2)

/-- `erfval = scipy.special.erfinv(2 * p - 1)**2` (source line 175). -/
def erfval (erfinv : ℝ → ℝ) (p : ℝ) : ℝ := erfinv (2 * p - 1) ^ 2

/-- One dimension's constraint (body of the loop at source lines 171-181). -/
def constraintFor (erfinv : ℝ → ℝ) (p : ℝ) (θ : ModelParams) (target : ℝ) : ℝ :=
  rootOf θ target (erfval erfinv p)

/-- `min(ast_constraints)` (source line 183): the minimum of the five
per-dimension constraints. -/
def minConstraint (erfinv : ℝ → ℝ) (p : ℝ) (model : SizeKey → ModelParams)
    (desired : SizeKey → ℝ) : ℝ :=
  min (constraintFor erfinv p (model SizeKey.graph_nodes) (desired SizeKey.graph_nodes))
    (min (constraintFor erfinv p (model SizeKey.graph_in_tagged_nodes)
        (desired SizeKey.graph_in_tagged_nodes))
      (min (constraintFor erfinv p (model SizeKey.initial_transitions)
          (desired SizeKey.initial_transitions))
        (min (constraintFor erfinv p (model SizeKey.in_tagged_transitions)
            (desired SizeKey.in_tagged_transitions))
          (constraintFor erfinv p (model SizeKey.edges) (desired SizeKey.edges)))))

/-- Python's `int()` conversion of a real number: truncation toward zero. -/
def truncToInt (x : ℝ) : ℤ := if 0 ≤ x then ⌊x⌋ else ⌈x⌉

/-- `ast_target_count = int(min(ast_constraints))` (source line 183). -/
def ast_target_count (erfinv : ℝ → ℝ) (p : ℝ) (model : SizeKey → ModelParams)
    (desired : SizeKey → ℝ) : ℤ :=
  truncToInt (minConstraint erfinv p model desired)

/-- The `p`-quantile of one dimension at the chosen target size (source lines
190-193), transcribed literally:
`mu + sqrt(2 * var) * erfinv(2 * p - 1)` with
`mu = base_mu + n * prop_mu` and `var = base_std**2 + n * prop_std**2 + 1e-3`. -/
def quantileFor (erfinv : ℝ → ℝ) (p : ℝ) (θ : ModelParams) (n : ℤ) : ℝ :=
  (θ.base_mu + (n : ℝ) * θ.prop_mu) +
    Real.sqrt (2 * (θ.base_std ^ 2 + (n : ℝ) * θ.prop_std ^ 2 + 1e-3)) * erfinv (2 * p - 1)

/-- Rounding of a quantile (source lines 194-198):
`int(np.exp2(np.ceil(np.log2(quantile - 0.5))))` when rounding to powers of
two is requested, otherwise `int(np.ceil(quantile))`. -/
def roundQuantile (round_to_powers_of_two : Bool) (q : ℝ) : ℤ :=
  if round_to_powers_of_two then truncToInt ((2 : ℝ) ^ (⌈Real.logb 2 (q - 0.5)⌉ : ℤ))
  else ⌈q⌉

/-- The final bound reported for one dimension at target size `n`. -/
def paddingBound (erfinv : ℝ → ℝ) (p : ℝ) (round_to_powers_of_two : Bool)
    (model : SizeKey → ModelParams) (n : ℤ) (k : SizeKey) : ℤ :=
  roundQuantile round_to_powers_of_two (quantileFor erfinv p (model k) n)

/-- The `desired_sizes` dictionary (source lines 157-168): the bound requested
for each dimension, read off the caller's padding configuration. -/
def desiredOf (cfg : PaddingConfig) : SizeKey → ℝ
  | .graph_nodes => (cfg.static_max_metadata.num_nodes : ℝ)
  | .graph_in_tagged_nodes => (cfg.static_max_metadata.num_input_tagged_nodes : ℝ)
  | .initial_transitions => (cfg.max_initial_transitions : ℝ)
  | .in_tagged_transitions => (cfg.max_in_tagged_transitions : ℝ)
  | .edges => (cfg.max_edges : ℝ)

/-- The whole of `calibrate_padding`: sample, fit each dimension, solve for
the target size, report rounded quantiles, assemble the result (source lines
95-210).  The call either fully succeeds or propagates an error. -/
def calibrate_padding {σ ε : Type} (nameErr : ε)
    (example_builder : ℤ → Except ε ExampleData)
    (desired_sizes : PaddingConfig)
    (erfinv : ℝ → ℝ)
    (success_probability : ℝ)
    (draws : List ℤ)
    (optInit : ModelParams → σ)
    (optStep : σ → ModelParams → List (ℝ × ℝ) → σ × ModelParams)
    (optimization_max_steps : ℕ)
    (log_likelihood_epsilon : ℝ)
    (round_to_powers_of_two : Bool) :
    Except ε (ℤ × PaddingConfig) :=
  match collectSamples example_builder draws with
  | Except.error e => Except.error e
  | Except.ok samples =>
    match fitDims (fun k =>
        fit_model_checked nameErr optInit (fun st params => optStep st params (dimData samples k))
          optimization_max_steps log_likelihood_epsilon (dimData samples k)) with
    | Except.error e => Except.error e
    | Except.ok model =>
      let n := ast_target_count erfinv success_probability model (desiredOf desired_sizes)
      Except.ok (n, PaddingConfig.mk
        (EncodedGraphMetadata.mk
          (paddingBound erfinv success_probability round_to_powers_of_two model n .graph_nodes)
          (paddingBound erfinv success_probability round_to_powers_of_two model n
            .graph_in_tagged_nodes))
        (paddingBound erfinv success_probability round_to_powers_of_two model n
          .initial_transitions)
        (paddingBound erfinv success_probability round_to_powers_of_two model n
          .in_tagged_transitions)
        (paddingBound erfinv success_probability round_to_powers_of_two model n .edges))

/-! ### Concrete instances used by counterexamples and witnesses -/

/-- Fitted parameters that drive the constraint root negative and fractional
when the desired bound is `0`: `base_mu = 0`, `base_std = sqrt 5.999`,
`prop_mu = 1`, `prop_std = 1`. -/
def negRootParams : ModelParams := ModelParams.mk 0 (Real.sqrt 5.999) 1 1

/-- Fitted parameters whose solved target size is `4` against bound `5` at
`p = 1/2`, with quantile `4.3` there. -/
def pow2CexParams : ModelParams := ModelParams.mk 0.3 1 1 1

/-- Fitted parameters whose solved target size is `0` against bound `1` at
`p = 1/2`, with quantile `0.8` there: power-of-two rounding then returns `0`. -/
def tinyQuantParams : ModelParams := ModelParams.mk 0.8 1 1 1

/-- Fitted parameters `base_mu = 0`, `base_std = 1`, `prop_mu = 1`,
`prop_std = 0`, solved against bound `10`. -/
def slopeOnlyParams : ModelParams := ModelParams.mk 0 1 1 0

/-- Fitted parameters with a negative slope `prop_mu = -1`. -/
def negSlopeParams : ModelParams := ModelParams.mk 0 1 (-1) 0

/-- Desired bounds raising only the `graph_nodes` bound from `5` to `6`. -/
def bumpedBounds : SizeKey → ℝ := fun k => match k with
  | SizeKey.graph_nodes => 6
  | _ => 5

/-- Desired bounds raising only the `graph_nodes` bound from `10` to `11`. -/
def bumpedTen : SizeKey → ℝ := fun k => match k with
  | SizeKey.graph_nodes => 11
  | _ => 10

/-- One optimizer step on the pair of optimizer state and parameters. -/
def stepPair {σ : Type} (optStep : σ → ModelParams → σ × ModelParams) :
    σ × ModelParams → σ × ModelParams := fun sp => optStep sp.1 sp.2

/-- A concrete generated example with `3` nodes, `2` input-tagged nodes, `1`
initial transition, `2` in-tagged transitions and `3` edges. -/
def sampleExample : ExampleData :=
  ExampleData.mk (GraphMetadata.mk 3 2)
    (AutomatonGraph.mk (SparseArray.mk [()]) (SparseArray.mk [(), ()]))
    (SparseArray.mk [(), (), ()])

/-! ### Definitions transcribed from the specification's wording

These follow the formulas as the spec states them (sections 4.2-4.4) and are
compared against the source transcription above. -/

/-- Spec formula: `mean(n) = base_mean + n * slope_mean`. -/
def meanAt (θ : ModelParams) (n : ℝ) : ℝ := θ.base_mu + n * θ.prop_mu

/-- Spec formula: `variance(n) = base_std² + n * slope_std² + ε`, `ε = 1e-3`. -/
def varAt (θ : ModelParams) (n : ℝ) : ℝ := θ.base_std ^ 2 + n * θ.prop_std ^ 2 + 1e-3

/-- Spec coefficient `a = slope_mean²`. -/
def specQuadA (θ : ModelParams) : ℝ := θ.prop_mu ^ 2

/-- Spec coefficient `b = 2·slope_mean·(base_mean − target) − 2·slope_std²·E`
with `E = erfinv(2p−1)²`. -/
def specQuadB (θ : ModelParams) (target E : ℝ) : ℝ :=
  2 * θ.prop_mu * (θ.base_mu - target) - 2 * θ.prop_std ^ 2 * E

/-- Spec coefficient `c = (target − base_mean)² − 2·(base_std² + ε)·E`. -/
def specQuadC (θ : ModelParams) (target E : ℝ) : ℝ :=
  (target - θ.base_mu) ^ 2 - 2 * (θ.base_std ^ 2 + 1e-3) * E

/-- Spec root `(−b − sqrt(b² − 4ac)) / (2a)`. -/
def specRoot (θ : ModelParams) (target E : ℝ) : ℝ :=
  (-specQuadB θ target E -
      Real.sqrt (specQuadB θ target E ^ 2 - 4 * specQuadA θ * specQuadC θ target E)) /
    (2 * specQuadA θ)

/-- Spec: the minimum of the per-dimension roots across all five dimensions. -/
def specMinRoot (erfinv : ℝ → ℝ) (p : ℝ) (model : SizeKey → ModelParams)
    (desired : SizeKey → ℝ) : ℝ :=
  min (specRoot (model SizeKey.graph_nodes) (desired SizeKey.graph_nodes) (erfval erfinv p))
    (min (specRoot (model SizeKey.graph_in_tagged_nodes)
        (desired SizeKey.graph_in_tagged_nodes) (erfval erfinv p))
      (min (specRoot (model SizeKey.initial_transitions)
          (desired SizeKey.initial_transitions) (erfval erfinv p))
        (min (specRoot (model SizeKey.in_tagged_transitions)
            (desired SizeKey.in_tagged_transitions) (erfval erfinv p))
          (specRoot (model SizeKey.edges) (desired SizeKey.edges) (erfval erfinv p)))))

/-- The discriminant `b² − 4ac` of one dimension's constraint quadratic. -/
def discriminantFor (erfinv : ℝ → ℝ) (p : ℝ) (θ : ModelParams) (target : ℝ) : ℝ :=
  specQuadB θ target (erfval erfinv p) ^ 2 -
    4 * specQuadA θ * specQuadC θ target (erfval erfinv p)

/-! ### Bridging lemmas between the source transcription and the spec
formulas -/

lemma constraintFor_eq_spec (erfinv : ℝ → ℝ) (p : ℝ) (θ : ModelParams) (t : ℝ) :
    constraintFor erfinv p θ t = specRoot θ t (erfval erfinv p) := rfl

lemma minConstraint_eq_spec (erfinv : ℝ → ℝ) (p : ℝ) (model : SizeKey → ModelParams)
    (desired : SizeKey → ℝ) :
    minConstraint erfinv p model desired = specMinRoot erfinv p model desired := rfl

lemma negRoot_constraint :
    constraintFor (fun x => x) (3/4) negRootParams 0 = -(3/2) := by
  have hE : erfval (fun x => x) (3/4) = 1/4 := by norm_num [erfval]
  have ha : specQuadA negRootParams = 1 := by norm_num [specQuadA, negRootParams]
  have hb : specQuadB negRootParams 0 (1/4) = -(1/2) := by
    norm_num [specQuadB, negRootParams]
  have hc : specQuadC negRootParams 0 (1/4) = -3 := by
    show ((0:ℝ) - 0) ^ 2 - 2 * (Real.sqrt 5.999 ^ 2 + 1e-3) * (1/4) = -3
    rw [Real.sq_sqrt (by norm_num : (0:ℝ) ≤ 5.999)]
    norm_num
  rw [constraintFor_eq_spec, hE]
  unfold specRoot
  rw [ha, hb, hc]
  rw [show ((-(1/2):ℝ)) ^ 2 - 4 * 1 * (-3) = (7/2) ^ 2 by norm_num,
    Real.sqrt_sq (by norm_num : (0:ℝ) ≤ 7/2)]
  norm_num

lemma negRoot_min :
    minConstraint (fun x => x) (3/4) (fun _ => negRootParams) (fun _ => 0) = -(3/2) := by
  simp only [minConstraint, negRoot_constraint, min_self]

lemma negRoot_ast :
    ast_target_count (fun x => x) (3/4) (fun _ => negRootParams) (fun _ => 0) = -1 := by
  unfold ast_target_count truncToInt
  rw [negRoot_min, if_neg (by norm_num : ¬ (0:ℝ) ≤ -(3/2))]
  rw [Int.ceil_eq_iff] <;> norm_num

/-- Claim C1 (amended): for every dimension the constraint solver computes
the quadratic coefficients `a`, `b`, `c` as stated and takes the root
`(-b - sqrt(b^2 - 4ac)) / (2a)`; the returned target size is the minimum of
these roots over the five dimensions converted by truncation toward zero
(floor for a nonnegative minimum, ceiling for a negative one), not by the
integer floor. -/
theorem claim1_solver_quadratic_trunc_min (erfinv : ℝ → ℝ) (p : ℝ)
    (model : SizeKey → ModelParams) (desired : SizeKey → ℝ) :
    ast_target_count erfinv p model desired =
      if 0 ≤ specMinRoot erfinv p model desired then ⌊specMinRoot erfinv p model desired⌋
      else ⌈specMinRoot erfinv p model desired⌉ := by
  unfold ast_target_count truncToInt
  rw [minConstraint_eq_spec]

/-- Claim C1, counterexample to the claim as stated: at fitted parameters
`negRootParams` for all five dimensions and desired bounds `0`, the minimum
root is `-3/2`, whose integer floor is `-2`, yet the solver returns `-1`
(Python `int()` truncates toward zero). -/
theorem claim1_counterexample :
    ast_target_count (fun x => x) (3/4) (fun _ => negRootParams) (fun _ => 0) = -1 ∧
    ⌊specMinRoot (fun x => x) (3/4) (fun _ => negRootParams) (fun _ => 0)⌋ = -2 := by
  refine ⟨negRoot_ast, ?_⟩
  rw [← minConstraint_eq_spec, negRoot_min]
  norm_num

/-- Claim C9: the returned target size is Python's `int()` of the minimal
constraint root, which floors nonnegative values but ceils (truncates toward
zero) negative ones, and it is not clamped or validated: at the
`negRootParams` instance the returned target size is `-1`, which is negative
and outside the default sampled range `[16, 512)`. -/
theorem claim9_int_truncation_no_clamp :
    (∀ (erfinv : ℝ → ℝ) (p : ℝ) (model : SizeKey → ModelParams) (desired : SizeKey → ℝ),
      ast_target_count erfinv p model desired =
        truncToInt (minConstraint erfinv p model desired)) ∧
    (∀ x : ℝ, 0 ≤ x → truncToInt x = ⌊x⌋) ∧
    (∀ x : ℝ, x < 0 → truncToInt x = ⌈x⌉) ∧
    truncToInt (-(3/2) : ℝ) = -1 ∧ ⌊(-(3/2) : ℝ)⌋ = -2 ∧
    ast_target_count (fun x => x) (3/4) (fun _ => negRootParams) (fun _ => 0) = -1 ∧
    ast_target_count (fun x => x) (3/4) (fun _ => negRootParams) (fun _ => 0) < 0 ∧
    ¬ (16 ≤ ast_target_count (fun x => x) (3/4) (fun _ => negRootParams) (fun _ => 0) ∧
        ast_target_count (fun x => x) (3/4) (fun _ => negRootParams) (fun _ => 0) < 512) := by
  refine ⟨fun _ _ _ _ => rfl, fun x hx => if_pos hx, fun x hx => if_neg (not_le.mpr hx),
    ?_, by norm_num, negRoot_ast, ?_, ?_⟩
  · unfold truncToInt
    rw [if_neg (by norm_num : ¬ (0:ℝ) ≤ -(3/2))]
    rw [Int.ceil_eq_iff] <;> norm_num
  · rw [negRoot_ast]; norm_num
  · rw [negRoot_ast]; norm_num

/-- Witness for claim C9: the truncation clauses applied at `3/2` and
`-3/2`. -/
theorem claim9_witness :
    truncToInt ((3/2 : ℝ)) = ⌊(3/2 : ℝ)⌋ ∧ truncToInt (-(3/2) : ℝ) = ⌈(-(3/2) : ℝ)⌉ :=
  ⟨claim9_int_truncation_no_clamp.2.1 (3/2) (by norm_num),
   claim9_int_truncation_no_clamp.2.2.1 (-(3/2)) (by norm_num)⟩

/-! ### Power-of-two rounding -/

/-- For a quantile above `1`, the rounded value `int(exp2(ceil(log2(q - 0.5))))`
is the least power of two that is at least `q - 0.5`. -/
lemma roundPow2_spec (q : ℝ) (hq : 1 < q) :
    ∃ j : ℕ, roundQuantile true q = 2 ^ j ∧ q - 0.5 ≤ (((2:ℤ) ^ j : ℤ) : ℝ) ∧
      ∀ i : ℕ, q - 0.5 ≤ (2:ℝ) ^ i → (2:ℤ) ^ j ≤ (2:ℤ) ^ i := by
  have hx : (0:ℝ) < q - 0.5 := by norm_num; linarith
  have hxhalf : (2:ℝ)⁻¹ < q - 0.5 := by norm_num; linarith
  have hL1 : (-1 : ℝ) < Real.logb 2 (q - 0.5) := by
    rw [Real.lt_logb_iff_rpow_lt (by norm_num) hx, Real.rpow_neg_one]
    exact hxhalf
  have hk0 : 0 ≤ ⌈Real.logb 2 (q - 0.5)⌉ := by
    have h2 : (-1:ℝ) < (⌈Real.logb 2 (q - 0.5)⌉ : ℝ) :=
      lt_of_lt_of_le hL1 (Int.le_ceil _)
    have h3 : (-1:ℤ) < ⌈Real.logb 2 (q - 0.5)⌉ := by exact_mod_cast h2
    omega
  refine ⟨(⌈Real.logb 2 (q - 0.5)⌉).toNat, ?_, ?_, ?_⟩
  · unfold roundQuantile truncToInt
    rw [if_pos rfl]
    rw [show (⌈Real.logb 2 (q - 0.5)⌉ : ℤ) = ((⌈Real.logb 2 (q - 0.5)⌉).toNat : ℤ) from
      (Int.toNat_of_nonneg hk0).symm]
    rw [zpow_natCast]
    rw [if_pos (by positivity)]
    rw [show ((2:ℝ) ^ (⌈Real.logb 2 (q - 0.5)⌉).toNat) =
      (((2:ℤ) ^ (⌈Real.logb 2 (q - 0.5)⌉).toNat : ℤ) : ℝ) by push_cast; ring]
    exact Int.floor_intCast _
  · have h1 : q - 0.5 = (2:ℝ) ^ Real.logb 2 (q - 0.5) :=
      (Real.rpow_logb (by norm_num) (by norm_num) hx).symm
    have h2 : (2:ℝ) ^ Real.logb 2 (q - 0.5) ≤ (2:ℝ) ^ ((⌈Real.logb 2 (q - 0.5)⌉ : ℤ) : ℝ) :=
      Real.rpow_le_rpow_of_exponent_le (by norm_num) (by exact_mod_cast Int.le_ceil _)
    rw [Real.rpow_intCast] at h2
    rw [show (⌈Real.logb 2 (q - 0.5)⌉ : ℤ) = ((⌈Real.logb 2 (q - 0.5)⌉).toNat : ℤ) from
      (Int.toNat_of_nonneg hk0).symm, zpow_natCast] at h2
    push_cast
    linarith [h1, h2]
  · intro i hi
    have hLle : Real.logb 2 (q - 0.5) ≤ (i:ℝ) := by
      rw [Real.logb_le_iff_le_rpow (by norm_num) hx, Real.rpow_natCast]
      exact hi
    have hc : ⌈Real.logb 2 (q - 0.5)⌉ ≤ (i:ℤ) := Int.ceil_le.mpr (by exact_mod_cast hLle)
    have hji : (⌈Real.logb 2 (q - 0.5)⌉).toNat ≤ i := by omega
    exact pow_le_pow_right₀ (by norm_num) hji

lemma pow2Cex_root : constraintFor (fun x => x) (1/2) pow2CexParams 5 = 4.7 := by
  have hE : erfval (fun x => x) (1/2) = 0 := by norm_num [erfval]
  have ha : specQuadA pow2CexParams = 1 := by norm_num [specQuadA, pow2CexParams]
  have hb : specQuadB pow2CexParams 5 0 = -9.4 := by
    norm_num [specQuadB, pow2CexParams]
  have hc : specQuadC pow2CexParams 5 0 = 22.09 := by
    norm_num [specQuadC, pow2CexParams]
  rw [constraintFor_eq_spec, hE]
  unfold specRoot
  rw [ha, hb, hc]
  rw [show ((-9.4:ℝ)) ^ 2 - 4 * 1 * 22.09 = 0 by norm_num, Real.sqrt_zero]
  norm_num

lemma pow2Cex_ast :
    ast_target_count (fun x => x) (1/2) (fun _ => pow2CexParams) (fun _ => 5) = 4 := by
  unfold ast_target_count truncToInt
  have hmin : minConstraint (fun x => x) (1/2) (fun _ => pow2CexParams) (fun _ => 5) = 4.7 := by
    simp only [minConstraint, pow2Cex_root, min_self]
  rw [hmin, if_pos (by norm_num : (0:ℝ) ≤ 4.7)]
  norm_num

lemma pow2Cex_quantile : quantileFor (fun x => x) (1/2) pow2CexParams 4 = 4.3 := by
  unfold quantileFor
  norm_num [pow2CexParams]

lemma pow2Cex_bound : roundQuantile true (4.3:ℝ) = 4 := by
  obtain ⟨j, hbound, hge, hmin⟩ := roundPow2_spec 4.3 (by norm_num)
  have h2 : (2:ℤ) ^ j ≤ (2:ℤ) ^ 2 := hmin 2 (by norm_num)
  have h4 : (4:ℤ) ≤ 2 ^ j := by
    have h38 : (3:ℝ) < (((2:ℤ) ^ j : ℤ) : ℝ) := by
      have : (4.3:ℝ) - 0.5 = 3.8 := by norm_num
      linarith [hge]
    have h3 : (3:ℤ) < 2 ^ j := by exact_mod_cast h38
    omega
  have hj : (2:ℤ) ^ j = 4 := le_antisymm (by norm_num at h2 ⊢; omega) h4
  rw [hbound, hj]

/-- Claim C2, counterexample to the claim as stated: at `pow2CexParams` with
bound `5` and `p = 1/2`, the chosen target size is `4`, the quantile there is
`4.3` with integer ceiling `5`, yet the returned power-of-two bound is `4`,
which is smaller than the ceiling. -/
theorem claim2_counterexample :
    ast_target_count (fun x => x) (1/2) (fun _ => pow2CexParams) (fun _ => 5) = 4 ∧
    paddingBound (fun x => x) (1/2) true (fun _ => pow2CexParams)
      (ast_target_count (fun x => x) (1/2) (fun _ => pow2CexParams) (fun _ => 5))
      SizeKey.graph_nodes = 4 ∧
    ⌈quantileFor (fun x => x) (1/2) pow2CexParams
      (ast_target_count (fun x => x) (1/2) (fun _ => pow2CexParams) (fun _ => 5))⌉ = 5 ∧
    ¬ (⌈quantileFor (fun x => x) (1/2) pow2CexParams
        (ast_target_count (fun x => x) (1/2) (fun _ => pow2CexParams) (fun _ => 5))⌉ ≤
      paddingBound (fun x => x) (1/2) true (fun _ => pow2CexParams)
        (ast_target_count (fun x => x) (1/2) (fun _ => pow2CexParams) (fun _ => 5))
        SizeKey.graph_nodes) := by
  have hb : paddingBound (fun x => x) (1/2) true (fun _ => pow2CexParams) 4
      SizeKey.graph_nodes = 4 := by
    show roundQuantile true (quantileFor (fun x => x) (1/2) pow2CexParams 4) = 4
    rw [pow2Cex_quantile, pow2Cex_bound]
  have hc : ⌈quantileFor (fun x => x) (1/2) pow2CexParams 4⌉ = 5 := by
    rw [pow2Cex_quantile]
    rw [Int.ceil_eq_iff] <;> norm_num
  rw [pow2Cex_ast]
  exact ⟨rfl, hb, hc, by rw [hb, hc]; norm_num⟩

/-- Claim C2 (amended): when every quantile at the chosen target size exceeds
`1`, each returned power-of-two bound is an exact power of two and at least
`quantile - 0.5` (not necessarily at least the integer ceiling of the
quantile). -/
theorem claim2_amended (erfinv : ℝ → ℝ) (p : ℝ) (model : SizeKey → ModelParams) (n : ℤ)
    (hq : ∀ k, 1 < quantileFor erfinv p (model k) n) (k : SizeKey) :
    (∃ j : ℕ, paddingBound erfinv p true model n k = 2 ^ j) ∧
    quantileFor erfinv p (model k) n - 0.5 ≤ (paddingBound erfinv p true model n k : ℝ) := by
  obtain ⟨j, h1, h2, _⟩ := roundPow2_spec (quantileFor erfinv p (model k) n) (hq k)
  have hb : paddingBound erfinv p true model n k = 2 ^ j := h1
  refine ⟨⟨j, hb⟩, ?_⟩
  rw [hb]
  exact_mod_cast h2

/-- Witness for claim C2: the amended statement applied at the concrete
instance with quantile `4.3`. -/
theorem claim2_witness :
    (∃ j : ℕ, paddingBound (fun x => x) (1/2) true (fun _ => pow2CexParams) 4
        SizeKey.graph_nodes = 2 ^ j) ∧
    quantileFor (fun x => x) (1/2) pow2CexParams 4 - 0.5 ≤
      (paddingBound (fun x => x) (1/2) true (fun _ => pow2CexParams) 4
        SizeKey.graph_nodes : ℝ) :=
  claim2_amended (fun x => x) (1/2) (fun _ => pow2CexParams) 4
    (fun k => by
      show (1:ℝ) < quantileFor (fun x => x) (1/2) pow2CexParams 4
      rw [pow2Cex_quantile]; norm_num)
    SizeKey.graph_nodes

lemma tinyQuant_root : constraintFor (fun x => x) (1/2) tinyQuantParams 1 = 0.2 := by
  have hE : erfval (fun x => x) (1/2) = 0 := by norm_num [erfval]
  have ha : specQuadA tinyQuantParams = 1 := by norm_num [specQuadA, tinyQuantParams]
  have hb : specQuadB tinyQuantParams 1 0 = -0.4 := by
    norm_num [specQuadB, tinyQuantParams]
  have hc : specQuadC tinyQuantParams 1 0 = 0.04 := by
    norm_num [specQuadC, tinyQuantParams]
  rw [constraintFor_eq_spec, hE]
  unfold specRoot
  rw [ha, hb, hc]
  rw [show ((-0.4:ℝ)) ^ 2 - 4 * 1 * 0.04 = 0 by norm_num, Real.sqrt_zero]
  norm_num

lemma tinyQuant_ast :
    ast_target_count (fun x => x) (1/2) (fun _ => tinyQuantParams) (fun _ => 1) = 0 := by
  unfold ast_target_count truncToInt
  have hmin : minConstraint (fun x => x) (1/2) (fun _ => tinyQuantParams) (fun _ => 1) = 0.2 := by
    simp only [minConstraint, tinyQuant_root, min_self]
  rw [hmin, if_pos (by norm_num : (0:ℝ) ≤ 0.2)]
  norm_num

lemma tinyQuant_quantile : quantileFor (fun x => x) (1/2) tinyQuantParams 0 = 0.8 := by
  unfold quantileFor
  norm_num [tinyQuantParams]

lemma tinyQuant_bound : roundQuantile true (0.8:ℝ) = 0 := by
  have hceil : ⌈Real.logb 2 ((0.8:ℝ) - 0.5)⌉ = -1 := by
    rw [Int.ceil_eq_iff]
    constructor
    · push_cast
      rw [show ((-1:ℝ) - 1) = -2 by norm_num]
      rw [Real.lt_logb_iff_rpow_lt (by norm_num) (by norm_num)]
      rw [show (-2:ℝ) = ((-2:ℤ):ℝ) by norm_num, Real.rpow_intCast]
      norm_num
    · push_cast
      rw [Real.logb_le_iff_le_rpow (by norm_num) (by norm_num)]
      rw [Real.rpow_neg_one]
      norm_num
  unfold roundQuantile
  rw [if_pos rfl, hceil]
  unfold truncToInt
  rw [show ((2:ℝ) ^ (-1:ℤ)) = 1/2 by norm_num]
  rw [if_pos (by norm_num : (0:ℝ) ≤ 1/2)]
  norm_num

/-- Claim C3, counterexample to the power-of-two clause as stated: at
`tinyQuantParams` with bound `1` and `p = 1/2`, the chosen target size is `0`
and the quantile there is `0.8`; the returned bound is `0`, which is not a
power of two at all (so in particular not the smallest power of two at least
`quantile - 0.5 = 0.3`). -/
theorem claim3_counterexample :
    ast_target_count (fun x => x) (1/2) (fun _ => tinyQuantParams) (fun _ => 1) = 0 ∧
    paddingBound (fun x => x) (1/2) true (fun _ => tinyQuantParams)
      (ast_target_count (fun x => x) (1/2) (fun _ => tinyQuantParams) (fun _ => 1))
      SizeKey.graph_nodes = 0 ∧
    (0:ℝ) < quantileFor (fun x => x) (1/2) tinyQuantParams
      (ast_target_count (fun x => x) (1/2) (fun _ => tinyQuantParams) (fun _ => 1)) - 0.5 ∧
    ¬ ∃ j : ℕ, paddingBound (fun x => x) (1/2) true (fun _ => tinyQuantParams)
        (ast_target_count (fun x => x) (1/2) (fun _ => tinyQuantParams) (fun _ => 1))
        SizeKey.graph_nodes = 2 ^ j := by
  have hb : paddingBound (fun x => x) (1/2) true (fun _ => tinyQuantParams) 0
      SizeKey.graph_nodes = 0 := by
    show roundQuantile true (quantileFor (fun x => x) (1/2) tinyQuantParams 0) = 0
    rw [tinyQuant_quantile, tinyQuant_bound]
  rw [tinyQuant_ast]
  refine ⟨rfl, hb, by rw [tinyQuant_quantile]; norm_num, ?_⟩
  rintro ⟨j, hj⟩
  rw [hb] at hj
  exact absurd hj (pow_pos (by norm_num : (0:ℤ) < 2) j).ne

/-- Claim C3 (amended): the reported quantile equals
`mean(n) + sqrt(2 variance(n)) erfinv(2p-1)`; with rounding off the bound is
the integer ceiling of the quantile; with rounding on and a quantile above
`1`, the bound is the least power of two at least `quantile - 0.5`. -/
theorem claim3_quantile_and_rounding :
    (∀ (erfinv : ℝ → ℝ) (p : ℝ) (θ : ModelParams) (n : ℤ),
      quantileFor erfinv p θ n =
        meanAt θ (n:ℝ) + Real.sqrt (2 * varAt θ (n:ℝ)) * erfinv (2 * p - 1)) ∧
    (∀ (erfinv : ℝ → ℝ) (p : ℝ) (model : SizeKey → ModelParams) (n : ℤ) (k : SizeKey),
      paddingBound erfinv p false model n k = ⌈quantileFor erfinv p (model k) n⌉) ∧
    (∀ (erfinv : ℝ → ℝ) (p : ℝ) (model : SizeKey → ModelParams) (n : ℤ) (k : SizeKey),
      1 < quantileFor erfinv p (model k) n →
      ∃ j : ℕ, paddingBound erfinv p true model n k = 2 ^ j ∧
        quantileFor erfinv p (model k) n - 0.5 ≤ (((2:ℤ) ^ j : ℤ) : ℝ) ∧
        ∀ i : ℕ, quantileFor erfinv p (model k) n - 0.5 ≤ (2:ℝ) ^ i →
          (2:ℤ) ^ j ≤ (2:ℤ) ^ i) := by
  refine ⟨fun erfinv p θ n => rfl, fun erfinv p model n k => rfl,
    fun erfinv p model n k hq => ?_⟩
  exact roundPow2_spec _ hq

/-- Witness for claim C3: the power-of-two clause applied at the concrete
instance with quantile `4.3`. -/
theorem claim3_witness :
    ∃ j : ℕ, paddingBound (fun x => x) (1/2) true (fun _ => pow2CexParams) 4
        SizeKey.graph_nodes = 2 ^ j ∧
      quantileFor (fun x => x) (1/2) pow2CexParams 4 - 0.5 ≤ (((2:ℤ) ^ j : ℤ) : ℝ) ∧
      ∀ i : ℕ, quantileFor (fun x => x) (1/2) pow2CexParams 4 - 0.5 ≤ (2:ℝ) ^ i →
        (2:ℤ) ^ j ≤ (2:ℤ) ^ i :=
  claim3_quantile_and_rounding.2.2 (fun x => x) (1/2) (fun _ => pow2CexParams) 4
    SizeKey.graph_nodes
    (by show (1:ℝ) < quantileFor (fun x => x) (1/2) pow2CexParams 4
        rw [pow2Cex_quantile]; norm_num)

/-! ### Quadratic root facts for the monotonicity claims -/

/-- A point where an upward quadratic is nonpositive lies at or above the
smaller root. -/
lemma smaller_root_le (a b c x : ℝ) (ha : 0 < a) (hx : a * x ^ 2 + b * x + c ≤ 0) :
    (-b - Real.sqrt (b ^ 2 - 4 * a * c)) / (2 * a) ≤ x := by
  have hsq : (2 * a * x + b) ^ 2 ≤ b ^ 2 - 4 * a * c := by nlinarith
  have habs : |2 * a * x + b| ≤ Real.sqrt (b ^ 2 - 4 * a * c) := by
    have h1 := Real.sqrt_le_sqrt hsq
    rwa [Real.sqrt_sq_eq_abs] at h1
  have h2 : -Real.sqrt (b ^ 2 - 4 * a * c) ≤ 2 * a * x + b := neg_le_of_abs_le habs
  rw [div_le_iff₀ (by linarith : (0:ℝ) < 2 * a)]
  linarith

/-- With a nonnegative discriminant, the smaller-root formula produces an
actual root of the quadratic. -/
lemma quad_root_zero (a b c : ℝ) (ha : a ≠ 0) (hD : 0 ≤ b ^ 2 - 4 * a * c) :
    a * ((-b - Real.sqrt (b ^ 2 - 4 * a * c)) / (2 * a)) ^ 2 +
      b * ((-b - Real.sqrt (b ^ 2 - 4 * a * c)) / (2 * a)) + c = 0 := by
  have hs : Real.sqrt (b ^ 2 - 4 * a * c) ^ 2 = b ^ 2 - 4 * a * c := Real.sq_sqrt hD
  have h2a : (2 * a) ≠ 0 := by
    intro h
    exact ha (by linarith [h])
  field_simp
  nlinarith [hs]

/-- Increasing the squared-erfinv value `E` does not increase one dimension's
constraint root, provided the quadratic at the smaller `E` has a real root and
the variance at that root is nonnegative. -/
lemma rootOf_antitone_E (θ : ModelParams) (t E1 E2 : ℝ) (hm : θ.prop_mu ≠ 0)
    (hD1 : 0 ≤ (2 * θ.prop_mu * (θ.base_mu - t) - 2 * θ.prop_std ^ 2 * E1) ^ 2 -
      4 * θ.prop_mu ^ 2 * ((t - θ.base_mu) ^ 2 - 2 * (θ.base_std ^ 2 + 1e-3) * E1))
    (hvar : 0 ≤ varAt θ (rootOf θ t E1)) (hE : E1 ≤ E2) :
    rootOf θ t E2 ≤ rootOf θ t E1 := by
  obtain ⟨mu0, sig0, m, s⟩ := θ
  simp only [rootOf, varAt] at *
  set r1 := (-(2 * m * (mu0 - t) - 2 * s ^ 2 * E1) -
      Real.sqrt ((2 * m * (mu0 - t) - 2 * s ^ 2 * E1) ^ 2 -
        4 * m ^ 2 * ((t - mu0) ^ 2 - 2 * (sig0 ^ 2 + 1e-3) * E1))) /
    (2 * m ^ 2) with hr1
  have ha : (0:ℝ) < m ^ 2 := pow_two_pos_of_ne_zero hm
  have hroot1 : m ^ 2 * r1 ^ 2 + (2 * m * (mu0 - t) - 2 * s ^ 2 * E1) * r1 +
      ((t - mu0) ^ 2 - 2 * (sig0 ^ 2 + 1e-3) * E1) = 0 := by
    exact quad_root_zero (m ^ 2) (2 * m * (mu0 - t) - 2 * s ^ 2 * E1)
      ((t - mu0) ^ 2 - 2 * (sig0 ^ 2 + 1e-3) * E1) (by positivity) hD1
  have hq2 : m ^ 2 * r1 ^ 2 + (2 * m * (mu0 - t) - 2 * s ^ 2 * E2) * r1 +
      ((t - mu0) ^ 2 - 2 * (sig0 ^ 2 + 1e-3) * E2) ≤ 0 := by
    have hprod : 0 ≤ (E2 - E1) * (sig0 ^ 2 + r1 * s ^ 2 + 1e-3) :=
      mul_nonneg (by linarith) hvar
    nlinarith [hroot1, hprod]
  exact smaller_root_le (m ^ 2) (2 * m * (mu0 - t) - 2 * s ^ 2 * E2)
    ((t - mu0) ^ 2 - 2 * (sig0 ^ 2 + 1e-3) * E2) r1 ha hq2

set_option maxHeartbeats 1000000 in
/-- Increasing the desired bound of a dimension with positive `prop_mu` and a
bound at or above `base_mu` does not decrease that dimension's constraint
root. -/
lemma rootOf_mono_target (θ : ModelParams) (E t t2 : ℝ) (hE : 0 ≤ E)
    (hm : 0 < θ.prop_mu) (hbase : θ.base_mu ≤ t) (htt : t ≤ t2) :
    rootOf θ t E ≤ rootOf θ t2 E := by
  obtain ⟨mu0, sig0, m, s⟩ := θ
  simp only [rootOf] at *
  have hu : 0 ≤ t - mu0 := by linarith
  have i2 : 0 ≤ 2 * m * s ^ 2 * (t - mu0) :=
    mul_nonneg (mul_nonneg (by linarith) (sq_nonneg s)) hu
  have i3 : (0:ℝ) ≤ 2 * m ^ 2 * (sig0 ^ 2 + 1e-3) := by positivity
  have i1 : 0 ≤ s ^ 4 * E := mul_nonneg (by positivity) hE
  have e1 : (2 * m * (mu0 - t) - 2 * s ^ 2 * E) ^ 2 -
      4 * m ^ 2 * ((t - mu0) ^ 2 - 2 * (sig0 ^ 2 + 1e-3) * E) =
      4 * E * (s ^ 4 * E + 2 * m * s ^ 2 * (t - mu0) + 2 * m ^ 2 * (sig0 ^ 2 + 1e-3)) := by
    ring
  have e2 : (2 * m * (mu0 - t2) - 2 * s ^ 2 * E) ^ 2 -
      4 * m ^ 2 * ((t2 - mu0) ^ 2 - 2 * (sig0 ^ 2 + 1e-3) * E) =
      4 * E * (s ^ 4 * E + 2 * m * s ^ 2 * (t2 - mu0) + 2 * m ^ 2 * (sig0 ^ 2 + 1e-3)) := by
    ring
  rw [e1, e2]
  set X1 := 4 * E * (s ^ 4 * E + 2 * m * s ^ 2 * (t - mu0) + 2 * m ^ 2 * (sig0 ^ 2 + 1e-3))
    with hX1def
  set X2 := 4 * E * (s ^ 4 * E + 2 * m * s ^ 2 * (t2 - mu0) + 2 * m ^ 2 * (sig0 ^ 2 + 1e-3))
    with hX2def
  have hX1 : 0 ≤ X1 := by
    rw [hX1def]
    exact mul_nonneg (mul_nonneg (by norm_num) hE) (by linarith)
  have hsq : (2 * s ^ 2 * E) ^ 2 ≤ X1 := by
    rw [hX1def]
    nlinarith [mul_nonneg (mul_nonneg (by norm_num : (0:ℝ) ≤ 4) hE) (by linarith [i2, i3] :
      (0:ℝ) ≤ 2 * m * s ^ 2 * (t - mu0) + 2 * m ^ 2 * (sig0 ^ 2 + 1e-3))]
  have h1 : 2 * s ^ 2 * E ≤ Real.sqrt X1 := by
    have h := Real.sqrt_le_sqrt hsq
    rwa [Real.sqrt_sq (mul_nonneg (by positivity) hE)] at h
  have hd : (0:ℝ) ≤ 2 * m * (t2 - t) := mul_nonneg (by linarith) (by linarith)
  have key : Real.sqrt X2 ≤ Real.sqrt X1 + 2 * m * (t2 - t) := by
    have hs1 : Real.sqrt X1 ^ 2 = X1 := Real.sq_sqrt hX1
    have h5 : (2 * m * (t2 - t)) * (2 * s ^ 2 * E) ≤ (2 * m * (t2 - t)) * Real.sqrt X1 :=
      mul_le_mul_of_nonneg_left h1 hd
    have hX2le : X2 ≤ (Real.sqrt X1 + 2 * m * (t2 - t)) ^ 2 := by
      rw [hX2def, hX1def] at *
      nlinarith [h5, hs1, sq_nonneg (2 * m * (t2 - t)), Real.sqrt_nonneg X1]
    have h6 := Real.sqrt_le_sqrt hX2le
    rwa [Real.sqrt_sq (add_nonneg (Real.sqrt_nonneg _) hd)] at h6
  have h2m2 : (0:ℝ) < 2 * m ^ 2 := by positivity
  have hnum : -(2 * m * (mu0 - t) - 2 * s ^ 2 * E) - Real.sqrt X1 ≤
      -(2 * m * (mu0 - t2) - 2 * s ^ 2 * E) - Real.sqrt X2 := by nlinarith [key]
  exact div_le_div_of_nonneg_right hnum h2m2.le

/-- The minimum over the five dimensions is monotone in the per-dimension
constraints. -/
lemma minConstraint_le_minConstraint (erfinv erfinv2 : ℝ → ℝ) (p p2 : ℝ)
    (model model2 : SizeKey → ModelParams) (desired desired2 : SizeKey → ℝ)
    (h : ∀ k, constraintFor erfinv p (model k) (desired k) ≤
      constraintFor erfinv2 p2 (model2 k) (desired2 k)) :
    minConstraint erfinv p model desired ≤ minConstraint erfinv2 p2 model2 desired2 := by
  unfold minConstraint
  exact min_le_min (h _) (min_le_min (h _) (min_le_min (h _) (min_le_min (h _) (h _))))

/-- Truncation toward zero is monotone. -/
lemma truncToInt_mono {x y : ℝ} (h : x ≤ y) : truncToInt x ≤ truncToInt y := by
  unfold truncToInt
  by_cases hx : 0 ≤ x
  · rw [if_pos hx, if_pos (le_trans hx h)]
    exact Int.floor_le_floor h
  · rw [if_neg hx]
    by_cases hy : 0 ≤ y
    · rw [if_pos hy]
      have h1 : ⌈x⌉ ≤ 0 := Int.ceil_le.mpr (by exact_mod_cast le_of_lt (not_le.mp hx))
      have h2 : 0 ≤ ⌊y⌋ := Int.le_floor.mpr (by exact_mod_cast hy)
      omega
    · rw [if_neg hy]
      exact Int.ceil_le_ceil h

lemma slopeOnly_root_half : constraintFor (fun x => x) (1/2) slopeOnlyParams 10 = 10 := by
  have hE : erfval (fun x => x) (1/2) = 0 := by norm_num [erfval]
  have ha : specQuadA slopeOnlyParams = 1 := by norm_num [specQuadA, slopeOnlyParams]
  have hb : specQuadB slopeOnlyParams 10 0 = -20 := by norm_num [specQuadB, slopeOnlyParams]
  have hc : specQuadC slopeOnlyParams 10 0 = 100 := by norm_num [specQuadC, slopeOnlyParams]
  rw [constraintFor_eq_spec, hE]
  unfold specRoot
  rw [ha, hb, hc]
  rw [show ((-20:ℝ)) ^ 2 - 4 * 1 * 100 = 0 by norm_num, Real.sqrt_zero]
  norm_num

lemma slopeOnly_ast_half :
    ast_target_count (fun x => x) (1/2) (fun _ => slopeOnlyParams) (fun _ => 10) = 10 := by
  unfold ast_target_count truncToInt
  have hmin : minConstraint (fun x => x) (1/2) (fun _ => slopeOnlyParams) (fun _ => 10)
      = 10 := by
    simp only [minConstraint, slopeOnly_root_half, min_self]
  rw [hmin, if_pos (by norm_num : (0:ℝ) ≤ 10)]
  norm_num

lemma slopeOnly_root_tenth :
    constraintFor (fun x => x) (1/10) slopeOnlyParams 10 = (20 - Real.sqrt 5.12512) / 2 := by
  have hE : erfval (fun x => x) (1/10) = 0.64 := by norm_num [erfval]
  have ha : specQuadA slopeOnlyParams = 1 := by norm_num [specQuadA, slopeOnlyParams]
  have hb : specQuadB slopeOnlyParams 10 0.64 = -20 := by
    norm_num [specQuadB, slopeOnlyParams]
  have hc : specQuadC slopeOnlyParams 10 0.64 = 98.71872 := by
    norm_num [specQuadC, slopeOnlyParams]
  rw [constraintFor_eq_spec, hE]
  unfold specRoot
  rw [ha, hb, hc]
  rw [show ((-20:ℝ)) ^ 2 - 4 * 1 * 98.71872 = 5.12512 by norm_num]
  norm_num

lemma sqrt512512_bounds : 2 < Real.sqrt 5.12512 ∧ Real.sqrt 5.12512 ≤ 4 := by
  constructor
  · have h := Real.sqrt_lt_sqrt (by norm_num : (0:ℝ) ≤ 4) (by norm_num : (4:ℝ) < 5.12512)
    rwa [show (4:ℝ) = 2 ^ 2 by norm_num, Real.sqrt_sq (by norm_num : (0:ℝ) ≤ 2)] at h
  · have h := Real.sqrt_le_sqrt (by norm_num : (5.12512:ℝ) ≤ 16)
    rwa [show (16:ℝ) = 4 ^ 2 by norm_num, Real.sqrt_sq (by norm_num : (0:ℝ) ≤ 4)] at h

lemma slopeOnly_ast_tenth :
    ast_target_count (fun x => x) (1/10) (fun _ => slopeOnlyParams) (fun _ => 10) = 8 := by
  obtain ⟨hlo, hhi⟩ := sqrt512512_bounds
  unfold ast_target_count truncToInt
  have hmin : minConstraint (fun x => x) (1/10) (fun _ => slopeOnlyParams) (fun _ => 10)
      = (20 - Real.sqrt 5.12512) / 2 := by
    simp only [minConstraint, slopeOnly_root_tenth, min_self]
  rw [hmin, if_pos (by linarith : (0:ℝ) ≤ (20 - Real.sqrt 5.12512) / 2)]
  rw [Int.floor_eq_iff]
  constructor
  · push_cast
    linarith
  · push_cast
    linarith

/-- Claim C4, counterexample to the claim as stated: with the identity as a
monotone odd-at-zero stand-in for `erfinv`, raising the success probability
from `1/10` to `1/2` raises the solved target size from `8` to `10`, because
the solver squares `erfinv(2p-1)` and thereby loses the sign for `p < 1/2`. -/
theorem claim4_counterexample :
    Monotone (fun x : ℝ => x) ∧ (fun x : ℝ => x) 0 = 0 ∧
    (0:ℝ) < 1/10 ∧ (1/10:ℝ) ≤ 1/2 ∧ (1/2:ℝ) < 1 ∧
    ast_target_count (fun x => x) (1/10) (fun _ => slopeOnlyParams) (fun _ => 10) = 8 ∧
    ast_target_count (fun x => x) (1/2) (fun _ => slopeOnlyParams) (fun _ => 10) = 10 ∧
    ¬ (ast_target_count (fun x => x) (1/2) (fun _ => slopeOnlyParams) (fun _ => 10) ≤
        ast_target_count (fun x => x) (1/10) (fun _ => slopeOnlyParams) (fun _ => 10)) := by
  refine ⟨fun _ _ h => h, rfl, by norm_num, by norm_num, by norm_num,
    slopeOnly_ast_tenth, slopeOnly_ast_half, ?_⟩
  rw [slopeOnly_ast_tenth, slopeOnly_ast_half]
  norm_num

/-- Claim C4 (amended): for probabilities `1/2 ≤ p1 ≤ p2` and any monotone
`erfinv` with `erfinv 0 = 0`, if every dimension has nonzero `prop_mu`, a
nonnegative discriminant at `p1`, and nonnegative variance at the `p1` root,
then raising the success probability does not increase the solved target
size. -/
theorem claim4_amended (erfinv : ℝ → ℝ) (hmono : Monotone erfinv) (h0 : erfinv 0 = 0)
    (model : SizeKey → ModelParams) (desired : SizeKey → ℝ) (p1 p2 : ℝ)
    (hp1 : 1/2 ≤ p1) (hp12 : p1 ≤ p2)
    (hm : ∀ k, (model k).prop_mu ≠ 0)
    (hD : ∀ k, 0 ≤ discriminantFor erfinv p1 (model k) (desired k))
    (hvar : ∀ k, 0 ≤ varAt (model k) (constraintFor erfinv p1 (model k) (desired k))) :
    ast_target_count erfinv p2 model desired ≤ ast_target_count erfinv p1 model desired := by
  have hE : erfval erfinv p1 ≤ erfval erfinv p2 := by
    unfold erfval
    have h1 : 0 ≤ erfinv (2 * p1 - 1) := by
      rw [← h0]
      exact hmono (by linarith)
    have h2 : erfinv (2 * p1 - 1) ≤ erfinv (2 * p2 - 1) := hmono (by linarith)
    exact pow_le_pow_left₀ h1 h2 2
  apply truncToInt_mono
  apply minConstraint_le_minConstraint
  intro k
  apply rootOf_antitone_E (model k) (desired k) _ _ (hm k) ?_ (hvar k) hE
  have h := hD k
  unfold discriminantFor specQuadA specQuadB specQuadC at h
  exact h

/-- Witness for claim C4: the amended statement applied at `slopeOnlyParams`
with `p1 = 1/2`, `p2 = 3/4` and the identity stand-in for `erfinv`. -/
theorem claim4_witness :
    ast_target_count (fun x => x) (3/4) (fun _ => slopeOnlyParams) (fun _ => 10) ≤
      ast_target_count (fun x => x) (1/2) (fun _ => slopeOnlyParams) (fun _ => 10) :=
  claim4_amended (fun x => x) (fun _ _ h => h) rfl (fun _ => slopeOnlyParams) (fun _ => 10)
    (1/2) (3/4) (by norm_num) (by norm_num)
    (fun k => by norm_num [slopeOnlyParams])
    (fun k => by
      show (0:ℝ) ≤ discriminantFor (fun x => x) (1/2) slopeOnlyParams 10
      norm_num [discriminantFor, specQuadA, specQuadB, specQuadC, erfval, slopeOnlyParams])
    (fun k => by
      show (0:ℝ) ≤ varAt slopeOnlyParams (constraintFor (fun x => x) (1/2) slopeOnlyParams 10)
      rw [slopeOnly_root_half]
      norm_num [varAt, slopeOnlyParams])

lemma negSlope_root (t : ℝ) :
    constraintFor (fun x => x) (3/4) negSlopeParams t =
      (-(2 * t) - Real.sqrt 2.002) / 2 := by
  have hE : erfval (fun x => x) (3/4) = 1/4 := by norm_num [erfval]
  have ha : specQuadA negSlopeParams = 1 := by norm_num [specQuadA, negSlopeParams]
  have hb : specQuadB negSlopeParams t (1/4) = 2 * t := by
    simp [specQuadB, negSlopeParams]
  have hc : specQuadC negSlopeParams t (1/4) = t ^ 2 - 0.5005 := by
    simp [specQuadC, negSlopeParams]
    norm_num
  rw [constraintFor_eq_spec, hE]
  unfold specRoot
  rw [ha, hb, hc]
  rw [show (2 * t) ^ 2 - 4 * 1 * (t ^ 2 - 0.5005) = (2.002:ℝ) by ring]
  norm_num

lemma sqrt2002_bounds : 0 ≤ Real.sqrt 2.002 ∧ Real.sqrt 2.002 < 2 := by
  refine ⟨Real.sqrt_nonneg _, ?_⟩
  have h := Real.sqrt_lt_sqrt (by norm_num : (0:ℝ) ≤ 2.002) (by norm_num : (2.002:ℝ) < 4)
  rwa [show (4:ℝ) = 2 ^ 2 by norm_num, Real.sqrt_sq (by norm_num : (0:ℝ) ≤ 2)] at h

lemma negSlope_ast_base :
    ast_target_count (fun x => x) (3/4) (fun _ => negSlopeParams) (fun _ => 5) = -5 := by
  obtain ⟨hlo, hhi⟩ := sqrt2002_bounds
  unfold ast_target_count truncToInt
  have hmin : minConstraint (fun x => x) (3/4) (fun _ => negSlopeParams) (fun _ => 5)
      = (-(2 * (5:ℝ)) - Real.sqrt 2.002) / 2 := by
    simp only [minConstraint, negSlope_root, min_self]
  rw [hmin, if_neg (by intro h; nlinarith)]
  rw [Int.ceil_eq_iff]
  constructor
  · push_cast
    nlinarith
  · push_cast
    nlinarith

lemma negSlope_ast_bumped :
    ast_target_count (fun x => x) (3/4) (fun _ => negSlopeParams) bumpedBounds = -6 := by
  obtain ⟨hlo, hhi⟩ := sqrt2002_bounds
  unfold ast_target_count truncToInt
  have hmin : minConstraint (fun x => x) (3/4) (fun _ => negSlopeParams) bumpedBounds
      = (-(2 * (6:ℝ)) - Real.sqrt 2.002) / 2 := by
    simp only [minConstraint, bumpedBounds, negSlope_root, min_self]
    rw [min_eq_left (by nlinarith)]
  rw [hmin, if_neg (by intro h; nlinarith)]
  rw [Int.ceil_eq_iff]
  constructor
  · push_cast
    nlinarith
  · push_cast
    nlinarith

/-- Claim C5, counterexample to the claim as stated: with a negative fitted
slope, raising only the `graph_nodes` bound from `5` to `6` lowers the solved
target size from `-5` to `-6`. -/
theorem claim5_counterexample :
    (∀ j : SizeKey, j ≠ SizeKey.graph_nodes → bumpedBounds j = (fun _ => (5:ℝ)) j) ∧
    (fun _ => (5:ℝ)) SizeKey.graph_nodes ≤ bumpedBounds SizeKey.graph_nodes ∧
    ast_target_count (fun x => x) (3/4) (fun _ => negSlopeParams) (fun _ => 5) = -5 ∧
    ast_target_count (fun x => x) (3/4) (fun _ => negSlopeParams) bumpedBounds = -6 ∧
    ¬ (ast_target_count (fun x => x) (3/4) (fun _ => negSlopeParams) (fun _ => 5) ≤
        ast_target_count (fun x => x) (3/4) (fun _ => negSlopeParams) bumpedBounds) := by
  refine ⟨?_, by norm_num [bumpedBounds], negSlope_ast_base, negSlope_ast_bumped, ?_⟩
  · intro j hj
    cases j with
    | graph_nodes => exact absurd rfl hj
    | graph_in_tagged_nodes => rfl
    | initial_transitions => rfl
    | in_tagged_transitions => rfl
    | edges => rfl
  · rw [negSlope_ast_base, negSlope_ast_bumped]
    norm_num

/-- Claim C5 (amended): raising one dimension's desired bound while all other
bounds stay fixed does not decrease the solved target size, provided the
changed dimension has positive `prop_mu` and its bound is at least its
`base_mu`. -/
theorem claim5_amended (erfinv : ℝ → ℝ) (p : ℝ) (model : SizeKey → ModelParams)
    (desired desired2 : SizeKey → ℝ) (k : SizeKey)
    (hothers : ∀ j, j ≠ k → desired2 j = desired j)
    (hk : desired k ≤ desired2 k)
    (hm : 0 < (model k).prop_mu)
    (hbase : (model k).base_mu ≤ desired k) :
    ast_target_count erfinv p model desired ≤ ast_target_count erfinv p model desired2 := by
  apply truncToInt_mono
  apply minConstraint_le_minConstraint
  intro j
  by_cases hjk : j = k
  · subst hjk
    exact rootOf_mono_target (model j) (erfval erfinv p) (desired j) (desired2 j)
      (sq_nonneg _) hm hbase hk
  · unfold constraintFor
    rw [hothers j hjk]

/-- Witness for claim C5: the amended statement applied at `slopeOnlyParams`,
raising the `graph_nodes` bound from `10` to `11`. -/
theorem claim5_witness :
    ast_target_count (fun x => x) (3/4) (fun _ => slopeOnlyParams) (fun _ => 10) ≤
      ast_target_count (fun x => x) (3/4) (fun _ => slopeOnlyParams) bumpedTen :=
  claim5_amended (fun x => x) (3/4) (fun _ => slopeOnlyParams) (fun _ => 10) bumpedTen
    SizeKey.graph_nodes
    (fun j hj => by
      cases j with
      | graph_nodes => exact absurd rfl hj
      | graph_in_tagged_nodes => rfl
      | initial_transitions => rfl
      | in_tagged_transitions => rfl
      | edges => rfl)
    (by norm_num [bumpedTen])
    (by norm_num [slopeOnlyParams])
    (by norm_num [slopeOnlyParams])

/-! ### The fitting loop -/

/-- The parameters returned by the fitting loop are an iterate of the
optimizer step, applied at most `fuel` times. -/
lemma fitGo_iterate {σ : Type} (optStep : σ → ModelParams → σ × ModelParams) (eps : ℝ)
    (nxs : List (ℝ × ℝ)) :
    ∀ (fuel : ℕ) (θ : ModelParams) (st : σ) (l lv : Option ℝ),
      ∃ k ≤ fuel, (fitGo optStep eps nxs fuel θ st l lv).1 =
        ((stepPair optStep)^[k] (st, θ)).2 := by
  intro fuel
  induction fuel with
  | zero => exact fun θ st l lv => ⟨0, le_refl 0, rfl⟩
  | succ n ih =>
    intro θ st l lv
    match l with
    | some lval =>
      by_cases hstop : |lval - compute_loss θ nxs| < eps
      · exact ⟨0, by omega, by simp [fitGo, hstop]⟩
      · obtain ⟨k, hk, hval⟩ := ih (optStep st θ).2 (optStep st θ).1
          (some (compute_loss θ nxs)) (some (compute_loss θ nxs))
        refine ⟨k + 1, by omega, ?_⟩
        calc (fitGo optStep eps nxs (n + 1) θ st (some lval) lv).1
            = (fitGo optStep eps nxs n (optStep st θ).2 (optStep st θ).1
                (some (compute_loss θ nxs)) (some (compute_loss θ nxs))).1 := by
              simp [fitGo, hstop]
          _ = ((stepPair optStep)^[k] ((optStep st θ).1, (optStep st θ).2)).2 := hval
          _ = ((stepPair optStep)^[k + 1] (st, θ)).2 := by
              rw [Function.iterate_succ_apply]
              rfl
    | none =>
      obtain ⟨k, hk, hval⟩ := ih (optStep st θ).2 (optStep st θ).1
        (some (compute_loss θ nxs)) (some (compute_loss θ nxs))
      refine ⟨k + 1, by omega, ?_⟩
      calc (fitGo optStep eps nxs (n + 1) θ st none lv).1
          = (fitGo optStep eps nxs n (optStep st θ).2 (optStep st θ).1
              (some (compute_loss θ nxs)) (some (compute_loss θ nxs))).1 := by
            simp [fitGo]
        _ = ((stepPair optStep)^[k] ((optStep st θ).1, (optStep st θ).2)).2 := hval
        _ = ((stepPair optStep)^[k + 1] (st, θ)).2 := by
            rw [Function.iterate_succ_apply]
            rfl

/-- Claim C6: the loss minimized per dimension is the negated sum over all
samples of `-1/2 (ln(variance(n) + 2 pi) + (x - mean(n))^2 / variance(n))`;
the fit starts from parameters `(0, 1, 0, 1)` and applies at most `maxSteps`
optimizer iterations; the loop stops as soon as the loss change from the
previous iteration is below `eps`. -/
theorem claim6_loss_and_loop {σ : Type} (optInit : ModelParams → σ)
    (optStep : σ → ModelParams → σ × ModelParams) (maxSteps : ℕ) (eps : ℝ)
    (nxs : List (ℝ × ℝ)) :
    (∀ θ, compute_loss θ nxs =
      -((nxs.map (fun nx => -(1/2) * (Real.log (varAt θ nx.1 + 2 * Real.pi) +
        (nx.2 - meanAt θ nx.1) ^ 2 / varAt θ nx.1))).sum)) ∧
    (∃ k ≤ maxSteps, (fit_model optInit optStep maxSteps eps nxs).1 =
      ((stepPair optStep)^[k]
        (optInit (ModelParams.mk 0 1 0 1), ModelParams.mk 0 1 0 1)).2) ∧
    (∀ (fuel : ℕ) (θ : ModelParams) (st : σ) (l : ℝ) (lv : Option ℝ),
      |l - compute_loss θ nxs| < eps →
      fitGo optStep eps nxs (fuel + 1) θ st (some l) lv =
        (θ, some (compute_loss θ nxs))) := by
  refine ⟨?_, ?_, ?_⟩
  · intro θ
    unfold compute_loss
    have hfun : (fun nx : ℝ × ℝ => single_log_likelihood θ nx.1 nx.2) =
        (fun nx : ℝ × ℝ => -(1/2) * (Real.log (varAt θ nx.1 + 2 * Real.pi) +
          (nx.2 - meanAt θ nx.1) ^ 2 / varAt θ nx.1)) := by
      funext nx
      unfold single_log_likelihood varAt meanAt
      norm_num
    rw [hfun]
  · exact fitGo_iterate optStep eps nxs maxSteps initParams (optInit initParams) none none
  · intro fuel θ st l lv h
    simp [fitGo, h]

/-- Witness for claim C6: the early-stopping clause applied with the identity
optimizer on an empty sample list, where the loss is `0`. -/
theorem claim6_witness :
    fitGo (fun (st : Unit) (p : ModelParams) => (st, p)) 1 ([] : List (ℝ × ℝ)) 1
      (ModelParams.mk 0 1 0 1) () (some 0) none =
      (ModelParams.mk 0 1 0 1, some (compute_loss (ModelParams.mk 0 1 0 1) [])) :=
  (claim6_loss_and_loop (fun _ => ()) (fun st p => (st, p)) 1 1 []).2.2 0
    (ModelParams.mk 0 1 0 1) () 0 none (by
      rw [show compute_loss (ModelParams.mk 0 1 0 1) [] = 0 from by simp [compute_loss]]
      norm_num)

/-! ### Error propagation through the sampling loop -/

/-- If the builder fails at the first failing draw, the whole sampling loop
returns that error. -/
lemma collectSamples_error_at {ε : Type} (builder : ℤ → Except ε ExampleData) :
    ∀ (draws : List ℤ) (i : ℕ) (hi : i < draws.length) (e : ε),
      builder (draws.get ⟨i, hi⟩) = Except.error e →
      (∀ j (hj : j < draws.length), j < i →
        ∃ ex, builder (draws.get ⟨j, hj⟩) = Except.ok ex) →
      collectSamples builder draws = Except.error e := by
  intro draws
  induction draws with
  | nil =>
    intro i hi
    exact absurd hi (by simp)
  | cons t rest ih =>
    intro i hi e he hprev
    cases i with
    | zero =>
      have ht : builder t = Except.error e := he
      unfold collectSamples
      rw [ht]
    | succ n =>
      obtain ⟨ex, hex⟩ := hprev 0 (by simp) (Nat.succ_pos n)
      have ht : builder t = Except.ok ex := hex
      have htail : collectSamples builder rest = Except.error e := by
        apply ih n (by simpa using hi) e he
        intro j hj hji
        exact hprev (j + 1) (by simpa using Nat.succ_lt_succ hj) (Nat.succ_lt_succ hji)
      unfold collectSamples
      rw [ht, htail]

/-- Claim C7: an error raised by `example_builder` at the first failing draw
propagates unmodified out of `calibrate_padding`; the `Except` result type
records that no partial result accompanies the error. -/
theorem claim7_error_propagation {σ ε : Type} (nameErr : ε)
    (example_builder : ℤ → Except ε ExampleData) (desired_sizes : PaddingConfig)
    (erfinv : ℝ → ℝ) (p : ℝ) (draws : List ℤ) (optInit : ModelParams → σ)
    (optStep : σ → ModelParams → List (ℝ × ℝ) → σ × ModelParams)
    (maxSteps : ℕ) (eps : ℝ) (r2 : Bool)
    (i : ℕ) (hi : i < draws.length) (e : ε)
    (he : example_builder (draws.get ⟨i, hi⟩) = Except.error e)
    (hprev : ∀ j (hj : j < draws.length), j < i →
      ∃ ex, example_builder (draws.get ⟨j, hj⟩) = Except.ok ex) :
    calibrate_padding nameErr example_builder desired_sizes erfinv p draws optInit optStep
      maxSteps eps r2 = Except.error e := by
  have hs := collectSamples_error_at example_builder draws i hi e he hprev
  unfold calibrate_padding
  rw [hs]

/-- Witness for claim C7: a builder that always raises error `7` makes the
whole call return exactly that error. -/
theorem claim7_witness :
    calibrate_padding (σ := Unit) (0 : ℕ) (fun _ => Except.error 7)
      (PaddingConfig.mk (EncodedGraphMetadata.mk 1 1) 1 1 1) (fun x => x) (1/2)
      [16] (fun _ => ()) (fun st p _ => (st, p)) 0 1 false = Except.error 7 :=
  claim7_error_propagation 0 (fun _ => Except.error 7)
    (PaddingConfig.mk (EncodedGraphMetadata.mk 1 1) 1 1 1) (fun x => x) (1/2)
    [16] (fun _ => ()) (fun st p _ => (st, p)) 0 1 false 0 (by norm_num) 7 rfl
    (fun j hj hji => absurd hji (Nat.not_lt_zero j))

/-! ### The sampling loop on successful runs -/

/-- On success, the sampling loop records exactly the drawn target sizes, in
order, and for each draw the five measurements of the single example built
from it. -/
lemma collectSamples_ok_spec {ε : Type} (builder : ℤ → Except ε ExampleData) :
    ∀ (draws : List ℤ) (samples : List (ℤ × (SizeKey → ℤ))),
      collectSamples builder draws = Except.ok samples →
      samples.map Prod.fst = draws ∧
      ∀ s ∈ samples, ∃ ex, builder s.1 = Except.ok ex ∧ s.2 = measureOf ex := by
  intro draws
  induction draws with
  | nil =>
    intro samples hs
    unfold collectSamples at hs
    injection hs with h
    subst h
    exact ⟨rfl, fun s hsmem => absurd hsmem (by simp)⟩
  | cons t rest ih =>
    intro samples hs
    unfold collectSamples at hs
    cases hb : builder t with
    | error e =>
      rw [hb] at hs
      exact absurd hs (by simp)
    | ok ex =>
      rw [hb] at hs
      cases ht : collectSamples builder rest with
      | error e =>
        rw [ht] at hs
        exact absurd hs (by simp)
      | ok tail =>
        rw [ht] at hs
        injection hs with h
        subst h
        obtain ⟨h1, h2⟩ := ih tail ht
        refine ⟨by simp [h1], ?_⟩
        intro s hsmem
        rcases List.mem_cons.mp hsmem with hcase | hcase
        · subst hcase
          exact ⟨ex, hb, rfl⟩
        · exact h2 s hcase

/-- Claim C8: when every draw lies in `[lo, hi)` (the documented contract of
`np.random.randint(lo, hi)`), every target size passed to the builder is one
of the draws, in order, lies in `[lo, hi)`, and all five measurements of a
sample come from the one example built from that same draw. -/
theorem claim8_sampling {ε : Type} (builder : ℤ → Except ε ExampleData)
    (draws : List ℤ) (lo hi : ℤ)
    (hrange : ∀ t ∈ draws, lo ≤ t ∧ t < hi)
    (samples : List (ℤ × (SizeKey → ℤ)))
    (hs : collectSamples builder draws = Except.ok samples) :
    samples.map Prod.fst = draws ∧
    ∀ s ∈ samples, (lo ≤ s.1 ∧ s.1 < hi) ∧
      ∃ ex, builder s.1 = Except.ok ex ∧ s.2 = measureOf ex := by
  obtain ⟨h1, h2⟩ := collectSamples_ok_spec builder draws samples hs
  refine ⟨h1, fun s hsmem => ⟨?_, h2 s hsmem⟩⟩
  apply hrange
  rw [← h1]
  exact List.mem_map_of_mem Prod.fst hsmem

/-- Witness for claim C8: a builder that always returns `sampleExample`, with
draws `[16, 20]` inside the default range `[16, 512)`. -/
theorem claim8_witness :
    ([((16:ℤ), measureOf sampleExample), ((20:ℤ), measureOf sampleExample)].map Prod.fst
      = [16, 20]) ∧
    ∀ s ∈ [((16:ℤ), measureOf sampleExample), ((20:ℤ), measureOf sampleExample)],
      ((16:ℤ) ≤ s.1 ∧ s.1 < 512) ∧
      ∃ ex, (fun _ : ℤ => Except.ok (ε := Unit) sampleExample) s.1 = Except.ok ex ∧
        s.2 = measureOf ex :=
  claim8_sampling (fun _ => Except.ok sampleExample) [16, 20] 16 512
    (by
      intro t ht
      rcases List.mem_cons.mp ht with h | h
      · subst h; norm_num
      · rcases List.mem_cons.mp h with h2 | h2
        · subst h2; norm_num
        · exact absurd h2 (by simp))
    [((16:ℤ), measureOf sampleExample), ((20:ℤ), measureOf sampleExample)] rfl

/-! ### The unbound `loss` variable when the loop never runs -/

/-- Once the `loss` variable has been assigned, the loop keeps it assigned. -/
lemma fitGo_lossVar_isSome {σ : Type} (optStep : σ → ModelParams → σ × ModelParams)
    (eps : ℝ) (nxs : List (ℝ × ℝ)) :
    ∀ (fuel : ℕ) (θ : ModelParams) (st : σ) (l : Option ℝ) (L : ℝ),
      ((fitGo optStep eps nxs fuel θ st l (some L)).2).isSome := by
  intro fuel
  induction fuel with
  | zero => intros; rfl
  | succ n ih =>
    intro θ st l L
    match l with
    | some lval =>
      by_cases h : |lval - compute_loss θ nxs| < eps
      · simp [fitGo, h]
      · simpa [fitGo, h] using ih (optStep st θ).2 (optStep st θ).1
          (some (compute_loss θ nxs)) (compute_loss θ nxs)
    | none =>
      simpa [fitGo] using ih (optStep st θ).2 (optStep st θ).1
        (some (compute_loss θ nxs)) (compute_loss θ nxs)

/-- With at least one iteration of budget, the loop always assigns `loss`. -/
lemma fitGo_succ_isSome {σ : Type} (optStep : σ → ModelParams → σ × ModelParams)
    (eps : ℝ) (nxs : List (ℝ × ℝ)) (n : ℕ) (θ : ModelParams) (st : σ)
    (l lv : Option ℝ) :
    ((fitGo optStep eps nxs (n + 1) θ st l lv).2).isSome := by
  match l with
  | some lval =>
    by_cases h : |lval - compute_loss θ nxs| < eps
    · simp [fitGo, h]
    · simpa [fitGo, h] using fitGo_lossVar_isSome optStep eps nxs n (optStep st θ).2
        (optStep st θ).1 (some (compute_loss θ nxs)) (compute_loss θ nxs)
  | none =>
    simpa [fitGo] using fitGo_lossVar_isSome optStep eps nxs n (optStep st θ).2
      (optStep st θ).1 (some (compute_loss θ nxs)) (compute_loss θ nxs)

/-- Claim C10: with `optimization_max_steps = 0` the per-dimension fit reads
the never-assigned `loss` variable and raises (`calibrate_padding` then always
returns an error); with at least one step the fit always returns a parameter
4-tuple. -/
theorem claim10_zero_steps {σ ε : Type} (nameErr : ε) (optInit : ModelParams → σ)
    (optStep : σ → ModelParams → σ × ModelParams) (eps : ℝ) (nxs : List (ℝ × ℝ)) :
    fit_model_checked nameErr optInit optStep 0 eps nxs = Except.error nameErr ∧
    (∀ maxSteps : ℕ, 1 ≤ maxSteps →
      ∃ θfit, fit_model_checked nameErr optInit optStep maxSteps eps nxs =
        Except.ok θfit) ∧
    (∀ (example_builder : ℤ → Except ε ExampleData) (desired_sizes : PaddingConfig)
        (erfinv : ℝ → ℝ) (p : ℝ) (draws : List ℤ)
        (optStep2 : σ → ModelParams → List (ℝ × ℝ) → σ × ModelParams) (r2 : Bool),
      ∃ e, calibrate_padding nameErr example_builder desired_sizes erfinv p draws optInit
        optStep2 0 eps r2 = Except.error e) := by
  refine ⟨rfl, ?_, ?_⟩
  · intro maxSteps hms
    match maxSteps, hms with
    | n + 1, _ =>
      have hsome := fitGo_succ_isSome optStep eps nxs n initParams (optInit initParams)
        none none
      unfold fit_model_checked fit_model
      cases hres : fitGo optStep eps nxs (n + 1) initParams (optInit initParams) none none
        with
      | mk params lv =>
        rw [hres] at hsome
        cases lv with
        | none => exact absurd hsome (by simp)
        | some L => exact ⟨params, rfl⟩
  · intro example_builder desired_sizes erfinv p draws optStep2 r2
    cases hs : collectSamples example_builder draws with
    | error e =>
      refine ⟨e, ?_⟩
      unfold calibrate_padding
      rw [hs]
    | ok samples =>
      refine ⟨nameErr, ?_⟩
      unfold calibrate_padding
      rw [hs]
      rfl

/-- Witness for claim C10: with one step of budget and the identity optimizer
on no samples, fitting returns the initial parameters. -/
theorem claim10_witness :
    ∃ θfit, fit_model_checked (ε := Unit) () (fun _ => ())
      (fun (st : Unit) (p : ModelParams) => (st, p)) 1 1 ([] : List (ℝ × ℝ)) =
      Except.ok θfit :=
  (claim10_zero_steps () (fun _ => ()) (fun st p => (st, p)) 1 []).2.1 1 (le_refl 1)

end
